import Mathlib

/-!
Verification of the statistics-and-aggregation engine of the tma-report
repository (calculator service and excel parser) against its natural-language
specification.

JavaScript numbers are modelled as exact rationals (`ℚ`).  `Number(x.toFixed(2))`
is modelled by `round2` (ECMAScript `toFixed` rounds to the nearest multiple of
1/100, ties away from zero, after splitting off the sign).
`Number(Math.sqrt(x).toFixed(2))` for `x ≥ 0` is modelled by `rsqrt2`, a
computable integer-square-root implementation; the theorem `rsqrt2_eq_floor_sqrt`
proves it agrees with rounding the exact real square root.
Missing scores (`null`) are modelled by `Option ℚ` with `none` for `null`.
-/

namespace TMA

/-- Model of `Number(x.toFixed(2))`: round to 2 decimal places, half away from
zero (ECMAScript `toFixed` negates first when the argument is negative). -/
def round2 (q : ℚ) : ℚ :=
  if q < 0 then -((⌊(-q) * 100 + 1/2⌋ : ℚ) / 100) else (⌊q * 100 + 1/2⌋ : ℚ) / 100

/-- Model of `Number(Math.sqrt(q).toFixed(2))` for `q ≥ 0`, computed with the
integer square root: the rounded value is `n/100` where `n` is the nearest
integer to `100·√q`. -/
def rsqrt2 (q : ℚ) : ℚ :=
  (((Nat.sqrt (⌊40000 * q⌋).toNat + 1) / 2 : ℕ) : ℚ) / 100

lemma round2_of_nonneg {q : ℚ} (h : 0 ≤ q) :
    round2 q = (⌊q * 100 + 1/2⌋ : ℚ) / 100 := by
  simp [round2, not_lt.mpr h]

lemma round2_eq_of_bounds (q : ℚ) (z : ℤ) (h0 : 0 ≤ q)
    (h1 : (z : ℚ) ≤ q * 100 + 1/2) (h2 : q * 100 + 1/2 < (z : ℚ) + 1) :
    round2 q = (z : ℚ) / 100 := by
  rw [round2_of_nonneg h0, Int.floor_eq_iff.mpr ⟨h1, h2⟩]

lemma nat_sqrt_eq (m s : ℕ) (h1 : s * s ≤ m) (h2 : m < (s + 1) * (s + 1)) :
    Nat.sqrt m = s := by
  have ha : s ≤ Nat.sqrt m := Nat.le_sqrt.mpr h1
  have hb : Nat.sqrt m < s + 1 := Nat.sqrt_lt.mpr h2
  omega

lemma rsqrt2_eq_of_data (q : ℚ) (t s : ℕ)
    (ht : ⌊40000 * q⌋ = (t : ℤ)) (h1 : s * s ≤ t) (h2 : t < (s + 1) * (s + 1)) :
    rsqrt2 q = (((s + 1) / 2 : ℕ) : ℚ) / 100 := by
  rw [rsqrt2, ht]
  rw [Int.toNat_ofNat, nat_sqrt_eq t s h1 h2]

/-- Bridge between the computable `rsqrt2` and rounding of the exact real square
root: for `q ≥ 0`, `rsqrt2 q` is `⌊100·√q + 1/2⌋ / 100`. -/
theorem rsqrt2_eq_floor_sqrt (q : ℚ) (h : 0 ≤ q) :
    ((rsqrt2 q : ℚ) : ℝ) = ((⌊Real.sqrt ((q : ℚ) : ℝ) * 100 + 1/2⌋ : ℤ) : ℝ) / 100 := by
  have hq : (0 : ℝ) ≤ ((q : ℚ) : ℝ) := by exact_mod_cast h
  set T : ℝ := ((40000 * q : ℚ) : ℝ) with hT
  have hT0 : (0 : ℝ) ≤ T := by rw [hT]; positivity
  set t : ℤ := ⌊(40000 * q : ℚ)⌋ with hti
  have ht0 : 0 ≤ t := Int.floor_nonneg.mpr (by positivity)
  have hfl : ⌊T⌋ = t := by rw [hT, Rat.floor_cast]
  have htn : ((t.toNat : ℤ)) = t := Int.toNat_of_nonneg ht0
  have htR : ((t.toNat : ℕ) : ℝ) = (t : ℝ) := by exact_mod_cast congrArg (fun z : ℤ => (z : ℝ)) htn
  set s : ℕ := Nat.sqrt t.toNat with hs
  have hs1n : (s * s : ℕ) ≤ t.toNat := by
    have := Nat.sqrt_le' t.toNat
    simpa [hs, pow_two] using this
  have hs2n : t.toNat < (s + 1) * (s + 1) := by
    have := Nat.lt_succ_sqrt' t.toNat
    simpa [hs, pow_two, Nat.succ_eq_add_one] using this
  have hs1 : (s : ℝ) * s ≤ T := by
    have h1 : ((s * s : ℕ) : ℝ) ≤ ((t.toNat : ℕ) : ℝ) := Nat.cast_le.mpr hs1n
    rw [htR] at h1
    have h2 : (t : ℝ) ≤ T := by rw [← hfl]; exact Int.floor_le T
    push_cast at h1
    linarith
  have hs2 : T < ((s : ℝ) + 1) * ((s : ℝ) + 1) := by
    have hint : t + 1 ≤ ((s + 1) * (s + 1) : ℕ) := by
      have h1 : ((t.toNat : ℤ)) < (((s + 1) * (s + 1) : ℕ) : ℤ) := by exact_mod_cast hs2n
      rw [htn] at h1
      omega
    have h2 : T < (t : ℝ) + 1 := by rw [← hfl]; exact Int.lt_floor_add_one T
    have h3 : ((t : ℝ)) + 1 ≤ (((s + 1) * (s + 1) : ℕ) : ℝ) := by exact_mod_cast hint
    push_cast at h3
    linarith
  have hsqT_lo : (s : ℝ) ≤ Real.sqrt T := by
    refine (Real.le_sqrt (by positivity) hT0).mpr ?_
    calc (s : ℝ) ^ 2 = (s : ℝ) * s := sq (s : ℝ)
    _ ≤ T := hs1
  have hsqT_hi : Real.sqrt T < (s : ℝ) + 1 := by
    refine (Real.sqrt_lt' (by positivity)).mpr ?_
    calc T < ((s : ℝ) + 1) * ((s : ℝ) + 1) := hs2
    _ = ((s : ℝ) + 1) ^ 2 := (sq _).symm
  have hsq_eq : Real.sqrt T = Real.sqrt ((q : ℚ) : ℝ) * 200 := by
    have h4 : T = ((q : ℚ) : ℝ) * (200 : ℝ) ^ 2 := by
      rw [hT]; push_cast; ring
    rw [h4, Real.sqrt_mul hq, Real.sqrt_sq (by norm_num : (0:ℝ) ≤ 200)]
  set n : ℕ := (s + 1) / 2 with hn
  have hlo : 2 * n ≤ s + 1 := by omega
  have hhi : s ≤ 2 * n := by omega
  have hfloor : ⌊Real.sqrt ((q : ℚ) : ℝ) * 100 + 1/2⌋ = (n : ℤ) := by
    have key : Real.sqrt ((q : ℚ) : ℝ) * 100 + 1/2 = (Real.sqrt T + 1) / 2 := by
      rw [hsq_eq]; ring
    rw [key]
    refine Int.floor_eq_iff.mpr ⟨?_, ?_⟩
    · have hcast : (2 * n : ℝ) ≤ (s : ℝ) + 1 := by exact_mod_cast hlo
      push_cast
      linarith [hsqT_lo]
    · have hcast : (s : ℝ) ≤ 2 * (n : ℝ) := by exact_mod_cast hhi
      push_cast
      linarith [hsqT_hi]
  rw [hfloor, rsqrt2]
  have hsame : (⌊40000 * q⌋).toNat = t.toNat := by rw [hti]
  rw [hsame, ← hs, ← hn]
  push_cast
  ring

/-!
Embedding of `server/services/calculator.js`.

Score values are `Option ℚ`: `none` models a JavaScript `null` entry, `some v`
models the number `v`.  The `!isNaN(v)` part of the filters is vacuous here
since `NaN` has no rational counterpart and parsed scores are numbers 1–5.
-/

/-- Model of the filter `values.filter(v => v !== null && !isNaN(v))`. -/
def validValues (values : List (Option ℚ)) : List ℚ :=
  values.filterMap id

/-- Model of `calculateAverage`: mean of the non-null entries, 2 decimal
places, and 0 for an empty valid set. -/
def calculateAverage (values : List (Option ℚ)) : ℚ :=
  let valid := validValues values
  if valid.length = 0 then 0
  else round2 (valid.sum / valid.length)

/-- Model of `calculateStdDev`: square root of the mean squared deviation from
the (already rounded) `calculateAverage` of the valid entries, 2 decimal
places, and 0 for an empty valid set. -/
def calculateStdDev (values : List (Option ℚ)) : ℚ :=
  let valid := validValues values
  if valid.length = 0 then 0
  else
    rsqrt2 (((valid.map (fun value => (value - calculateAverage (valid.map some)) ^ 2)).sum) / valid.length)

/-- Model of `calculateDistribution`: counts of the integer scores 1–5 among
the valid entries. -/
def calculateDistribution (values : List (Option ℚ)) : List ℕ :=
  [1, 2, 3, 4, 5].map (fun i => (validValues values).countP (fun value => value = (i : ℚ)))

/-- A question as produced by the excel parser: taxonomy fields plus the
per-question column of responses. -/
structure Question where
  index : ℕ
  driver : String
  skill : String
  text : String
  responses : List (Option ℚ)
deriving DecidableEq

/-- A question enriched by `calculateQuestionStats` (the JS object spread
`{...question, average, stdDev, distribution}`). -/
structure QuestionStats where
  index : ℕ
  driver : String
  skill : String
  text : String
  responses : List (Option ℚ)
  average : ℚ
  stdDev : ℚ
  distribution : List ℕ
deriving DecidableEq

/-- Model of `calculateQuestionStats`. -/
def calculateQuestionStats (questions : List Question) : List QuestionStats :=
  questions.map (fun q =>
    { index := q.index, driver := q.driver, skill := q.skill, text := q.text,
      responses := q.responses,
      average := calculateAverage q.responses,
      stdDev := calculateStdDev q.responses,
      distribution := calculateDistribution q.responses })

/-- Key list of a JS object built by insertion: the distinct values of the
input in first-seen order (models `Object.keys` of `driverGroups`). -/
def firstSeen : List String → List String
  | [] => []
  | d :: ds => d :: firstSeen (ds.filter (fun x => decide (x ≠ d)))
termination_by l => l.length
decreasing_by
  simp only [List.length_cons]
  exact Nat.lt_succ_of_le (List.length_filter_le _ ds)

/-- Model of `calculateDriverScores`: group question averages by driver in
first-seen order, then average each group. -/
def calculateDriverScores (questions : List QuestionStats) : List (String × ℚ) :=
  (firstSeen (questions.map (fun q => q.driver))).map (fun d =>
    (d, calculateAverage (((questions.filter (fun q => decide (q.driver = d))).map
      (fun q => q.average)).map some)))

/-- The shared scan of `findExtremeDrivers` and of the per-respondent
highest/lowest driver selection: fold over the entries, replacing the current
strongest only on strictly greater score and the current weakest only on
strictly smaller score. -/
def scanExtreme (init : String × ℚ) (entries : List (String × ℚ)) :
    (String × ℚ) × (String × ℚ) :=
  entries.foldl
    (fun sw e => ((if e.2 > sw.1.2 then e else sw.1), (if e.2 < sw.2.2 then e else sw.2)))
    (init, init)

/-- Model of `findExtremeDrivers`: empty input yields `(none, none)`; otherwise
the scan is initialized with the first entry and run over the whole list. -/
def findExtremeDrivers (driverScores : List (String × ℚ)) :
    Option (String × ℚ) × Option (String × ℚ) :=
  match driverScores with
  | [] => (none, none)
  | d :: ds =>
    let sw := scanExtreme d (d :: ds)
    (some sw.1, some sw.2)

/-- A respondent as produced by the parser (for the calculator stage). -/
structure Respondent where
  name : String
  scores : List (Option ℚ)
deriving DecidableEq

/-- One entry of `outlierQuestions`. -/
structure OutlierEntry where
  questionIndex : ℕ
  question : String
  respondentScore : ℚ
  teamAverage : ℚ
  difference : ℚ
deriving DecidableEq

/-- The record returned for each respondent by `calculateRespondentSummaries`
(the JS object spread `{...respondent, overallAverage, driverScores,
highestDriver, lowestDriver, outlierQuestions}`). -/
structure RespondentSummary where
  name : String
  scores : List (Option ℚ)
  overallAverage : ℚ
  driverScores : List (String × ℚ)
  highestDriver : String × ℚ
  lowestDriver : String × ℚ
  outlierQuestions : List OutlierEntry
deriving DecidableEq

/-- The per-respondent `(driver, score)` pairs collected by the
`questions.forEach((question, index) => ...)` loop: one pair per question
index at which the respondent has a non-null score. -/
def respScoredPairs (r : Respondent) (questions : List QuestionStats) :
    List (String × ℚ) :=
  questions.enum.filterMap (fun iq =>
    match r.scores.getD iq.1 none with
    | some s => some (iq.2.driver, s)
    | none => none)

/-- The `outlierQuestions` loop: a question index yields an entry exactly when
the respondent's score there is non-null and differs from the question's team
average by at least the threshold 1.5. -/
def outlierQuestionsOf (r : Respondent) (questions : List QuestionStats) :
    List OutlierEntry :=
  questions.enum.filterMap (fun iq =>
    match r.scores.getD iq.1 none with
    | some s =>
      if 3/2 ≤ |s - iq.2.average| then
        some { questionIndex := iq.1, question := iq.2.text, respondentScore := s,
               teamAverage := iq.2.average, difference := round2 (s - iq.2.average) }
      else none
    | none => none)

/-- The respondent's per-driver averages (`respondentDriverScores` in the JS
code): keys in first-seen order, value the rounded mean of the respondent's
scores on that driver's questions. -/
def respondentDriverScoresOf (r : Respondent) (questions : List QuestionStats) :
    List (String × ℚ) :=
  (firstSeen ((respScoredPairs r questions).map Prod.fst)).map (fun d =>
    (d, calculateAverage ((((respScoredPairs r questions).filter
      (fun p => decide (p.1 = d))).map Prod.snd).map some)))

/-- Model of the body of `calculateRespondentSummaries` for one respondent.
When the respondent's per-driver entry list is empty, the JS code reads
`driverEntries[0][0]` of `undefined` and throws; this is modelled by `none`. -/
def summarizeRespondent (r : Respondent) (questions : List QuestionStats) :
    Option RespondentSummary :=
  match respondentDriverScoresOf r questions with
  | [] => none
  | e :: es =>
    let sw := scanExtreme e (e :: es)
    some { name := r.name, scores := r.scores,
           overallAverage := calculateAverage r.scores,
           driverScores := e :: es,
           highestDriver := sw.1, lowestDriver := sw.2,
           outlierQuestions := outlierQuestionsOf r questions }

/-- Model of `calculateRespondentSummaries` (the unused `driverScores`
parameter of the JS function is omitted): `none` when any respondent makes the
JS code throw. -/
def calculateRespondentSummaries :
    List Respondent → List QuestionStats → Option (List RespondentSummary)
  | [], _ => some []
  | r :: rs, questions =>
    match summarizeRespondent r questions, calculateRespondentSummaries rs questions with
    | some s, some ss => some (s :: ss)
    | _, _ => none

/-- The fixed driver priority list of `calculateAll`. -/
def driverOrderList : List String :=
  ["Purpose", "People", "Plan", "Product", "Profit"]

/-- Model of `driverOrder.indexOf(driver)`: position in the priority list, or
-1 when absent. -/
def driverIdx (driver : String) : ℤ :=
  match driverOrderList.indexOf? driver with
  | some i => (i : ℤ)
  | none => -1

/-- Comparator of `sortByDriverOrder` (`aIndex - bIndex ≤ 0`). -/
def driverLe (a b : QuestionStats) : Bool :=
  decide (driverIdx a.driver ≤ driverIdx b.driver)

/-- Model of `sortByDriverOrder`: JavaScript `Array.prototype.sort` is stable,
modelled by the stable `List.mergeSort`. -/
def sortByDriverOrder (questions : List QuestionStats) : List QuestionStats :=
  questions.mergeSort driverLe

/-- Comparator `(a, b) => b.average - a.average` (descending average). -/
def avgDescLe (a b : QuestionStats) : Bool :=
  decide (b.average ≤ a.average)

/-- Comparator `(a, b) => a.stdDev - b.stdDev` (ascending std dev). -/
def stdDevAscLe (a b : QuestionStats) : Bool :=
  decide (a.stdDev ≤ b.stdDev)

/-- Comparator `(a, b) => b.stdDev - a.stdDev` (descending std dev). -/
def stdDevDescLe (a b : QuestionStats) : Bool :=
  decide (b.stdDev ≤ a.stdDev)

/-- The `sortedByAverage` array of `calculateAll`. -/
def sortedByAverage (questions : List QuestionStats) : List QuestionStats :=
  questions.mergeSort avgDescLe

/-- The `sortedByStdDev` array of `calculateAll`. -/
def sortedByStdDev (questions : List QuestionStats) : List QuestionStats :=
  questions.mergeSort stdDevAscLe

/-- The `sortedByAlignment` projection of `calculateAll`. -/
def sortedByAlignment (questions : List QuestionStats) : List QuestionStats :=
  sortByDriverOrder ((sortedByStdDev questions).take 8)

/-- The `sortedByDifference` projection of `calculateAll`. -/
def sortedByDifference (questions : List QuestionStats) : List QuestionStats :=
  sortByDriverOrder ((questions.mergeSort stdDevDescLe).take 8)

/-- The `sortedByHighestScore` projection of `calculateAll`. -/
def sortedByHighestScore (questions : List QuestionStats) : List QuestionStats :=
  sortByDriverOrder ((sortedByAverage questions).take 8)

/-- The `sortedByLowestScore` projection of `calculateAll`:
`[...sortedByAverage].reverse().slice(0, 8)`, then `sortByDriverOrder`. -/
def sortedByLowestScore (questions : List QuestionStats) : List QuestionStats :=
  sortByDriverOrder (((sortedByAverage questions).reverse).take 8)

/-- The output object of `calculateAll`.  The four `Option` fields model the
JS values `sortedByAverage[0]` etc., which are `undefined` on empty input. -/
structure CalculatedData where
  questions : List QuestionStats
  respondents : List RespondentSummary
  driverScores : List (String × ℚ)
  strongestDriver : Option (String × ℚ)
  weakestDriver : Option (String × ℚ)
  highestQuestion : Option QuestionStats
  lowestQuestion : Option QuestionStats
  mostAligned : Option QuestionStats
  mostDisagreed : Option QuestionStats
  allQuestionsInOrder : List QuestionStats
  sortedByAlignment : List QuestionStats
  sortedByDifference : List QuestionStats
  sortedByHighestScore : List QuestionStats
  sortedByLowestScore : List QuestionStats

/-- Model of `calculateAll`; `none` when `calculateRespondentSummaries`
throws. -/
def calculateAll (respondents : List Respondent) (questions : List Question) :
    Option CalculatedData :=
  let questionsWithStats := calculateQuestionStats questions
  let driverScores := calculateDriverScores questionsWithStats
  let extremes := findExtremeDrivers driverScores
  (calculateRespondentSummaries respondents questionsWithStats).map (fun summaries =>
    { questions := questionsWithStats,
      respondents := summaries,
      driverScores := driverScores,
      strongestDriver := extremes.1,
      weakestDriver := extremes.2,
      highestQuestion := (sortedByAverage questionsWithStats).head?,
      lowestQuestion := (sortedByAverage questionsWithStats).getLast?,
      mostAligned := (sortedByStdDev questionsWithStats).head?,
      mostDisagreed := (sortedByStdDev questionsWithStats).getLast?,
      allQuestionsInOrder := questionsWithStats,
      sortedByAlignment := sortedByAlignment questionsWithStats,
      sortedByDifference := sortedByDifference questionsWithStats,
      sortedByHighestScore := sortedByHighestScore questionsWithStats,
      sortedByLowestScore := sortedByLowestScore questionsWithStats })

/-!
Embedding of `server/services/excelParser.js`.

Raw cells are `Option String` (`none` for a `null`/`undefined` cell).  The
value returned by `textToScore` is a JavaScript value: a number, `null`, or —
because `SCORE_MAP[normalized] ?? null` performs an ordinary property lookup on
an object literal that inherits from `Object.prototype` — an inherited member
of `Object.prototype`.  After lower-casing, the only `Object.prototype` member
names that can match are the all-lowercase ones, `constructor` and
`__proto__`; those lookups produce a non-null object, modelled by `protoRef`.

String normalization (`String(response).trim().toLowerCase()`) is implemented
structurally on the character list so that it evaluates by `decide` (ASCII
folding, which is exact on every string relevant to the score vocabulary).
-/

/-- JavaScript value produced by `textToScore`. -/
inductive JsValue where
  | null : JsValue
  | num : ℚ → JsValue
  | protoRef : List Char → JsValue
deriving DecidableEq

/-- Whitespace recognised by `trim`. -/
def isSpaceChar (c : Char) : Bool :=
  c = ' ' || c = '\t' || c = '\n' || c = '\r'

/-- ASCII lower-casing of one character. -/
def lowerChar (c : Char) : Char :=
  if 'A' ≤ c ∧ c ≤ 'Z' then Char.ofNat (c.toNat + 32) else c

/-- Structural `trim().toLowerCase()` on a character list. -/
def normalizeChars (s : List Char) : List Char :=
  (((s.dropWhile isSpaceChar).reverse.dropWhile isSpaceChar).reverse).map lowerChar

/-- Model of `normalizeResponse`: a falsy (`null`/`undefined`/empty) response
becomes the empty string, otherwise trim and lower-case. -/
def normalizeResponse (response : Option String) : List Char :=
  match response with
  | none => []
  | some s => normalizeChars s.data

/-- The five own properties of the `SCORE_MAP` object literal. -/
def SCORE_MAP : List (List Char × ℚ) :=
  [("strongly agree".data, 5), ("agree".data, 4), ("neutral".data, 3),
   ("disagree".data, 2), ("strongly disagree".data, 1)]

/-- The `Object.prototype` member names that are entirely lower-case (hence the
only ones reachable after `toLowerCase()`). -/
def objectProtoLowercaseKeys : List (List Char) :=
  ["constructor".data, "__proto__".data]

/-- Model of `textToScore`: `SCORE_MAP[normalized] ?? null`.  An own property
gives its number; otherwise a property lookup can still hit an inherited
`Object.prototype` member, which is not nullish, so `??` passes it through. -/
def textToScore (response : Option String) : JsValue :=
  let normalized := normalizeResponse response
  match SCORE_MAP.lookup normalized with
  | some score => JsValue.num score
  | none =>
    if normalized ∈ objectProtoLowercaseKeys then JsValue.protoRef normalized
    else JsValue.null

/-- A respondent row as assembled by `parseExcelFile`. -/
structure ParsedRespondent where
  name : String
  scores : List JsValue
deriving DecidableEq

/-- Structural model of `String.prototype.trim` (used only for names). -/
def trimString (s : String) : String :=
  String.mk (((s.data.dropWhile isSpaceChar).reverse.dropWhile isSpaceChar).reverse)

/-- The respondent name: column E (index 4) when truthy, else the ordinal
placeholder. -/
def rowName (rowIndex : ℕ) (row : List (Option String)) : String :=
  match row.getD 4 none with
  | some s => if s = "" then "Respondent " ++ toString (rowIndex + 1) else trimString s
  | none => "Respondent " ++ toString (rowIndex + 1)

/-- The respondent's 82 scores, read from columns 9–90. -/
def rowScores (row : List (Option String)) : List JsValue :=
  (List.range 82).map (fun qi => textToScore (row.getD (9 + qi) none))

/-- The `validScoreCount` of a scores row: entries with `score !== null`. -/
def validScoreCount (scores : List JsValue) : ℕ :=
  scores.countP (fun s => decide (s ≠ JsValue.null))

/-- Model of the row-processing part of `parseExcelFile` on a pre-decoded cell
grid (spreadsheet decoding itself is out of scope; the question-metadata
assembly, which never fails and is not needed by the claims below, is not
repeated here).  Thrown errors are modelled by `Except.error` with the JS
message. -/
def parseExcelRows (data : List (List (Option String))) :
    Except String (List ParsedRespondent) :=
  if data.length < 2 then
    Except.error "Excel file must contain at least a header row and one respondent"
  else
    let dataRows := data.drop 1
    if dataRows.length = 0 then
      Except.error "No respondent data found in Excel file"
    else
      let respondents :=
        (dataRows.enum.map (fun ir =>
          ({ name := rowName ir.1 ir.2, scores := rowScores ir.2 } : ParsedRespondent))).filter
          (fun r => decide (0 < validScoreCount r.scores))
      if respondents.length = 0 then
        Except.error "No valid respondents found with scoreable responses"
      else
        Except.ok respondents

/-!
Supporting lemmas.
-/

lemma validValues_map_some (l : List ℚ) : validValues (l.map some) = l := by
  simp [validValues, List.filterMap_map]

lemma calculateAverage_eq {l : List (Option ℚ)} (h : validValues l ≠ []) :
    calculateAverage l = round2 ((validValues l).sum / (validValues l).length) := by
  have : (validValues l).length ≠ 0 := by
    simpa [List.length_eq_zero] using h
  simp [calculateAverage, this]

lemma calculateAverage_map_some (l : List ℚ) (h : l ≠ []) :
    calculateAverage (l.map some) = round2 (l.sum / l.length) := by
  rw [show calculateAverage (l.map some) =
      round2 ((validValues (l.map some)).sum / (validValues (l.map some)).length) from
    calculateAverage_eq (by simpa [validValues_map_some] using h)]
  rw [validValues_map_some]

lemma mem_firstSeen {x : String} : ∀ {l : List String}, x ∈ firstSeen l ↔ x ∈ l := by
  intro l
  induction l using firstSeen.induct with
  | case1 => simp [firstSeen]
  | case2 d ds ih =>
    rw [firstSeen]
    by_cases hx : x = d
    · simp [hx]
    · simp only [List.mem_cons, ih, List.mem_filter, hx, false_or]
      constructor
      · exact fun h => h.1
      · exact fun h => ⟨h, by simp [hx]⟩

lemma nodup_firstSeen : ∀ l : List String, (firstSeen l).Nodup := by
  intro l
  induction l using firstSeen.induct with
  | case1 => simp [firstSeen]
  | case2 d ds ih =>
    rw [firstSeen]
    refine List.Nodup.cons ?_ ih
    intro hmem
    have := mem_firstSeen.mp hmem
    simp [List.mem_filter] at this

lemma find?_eq_some_of_split {α : Type} (p : α → Bool) (l₁ l₂ : List α) (e : α)
    (h1 : ∀ x ∈ l₁, p x = false) (h2 : p e = true) :
    (l₁ ++ e :: l₂).find? p = some e := by
  induction l₁ with
  | nil => simpa using List.find?_cons_of_pos _ h2
  | cons a l ih =>
    have ha : p a = false := h1 a (by simp)
    rw [List.cons_append, List.find?_cons_of_neg _ (by simp [ha])]
    exact ih (fun x hx => h1 x (by simp [hx]))

/-- The strongest-so-far component of the scan. -/
def foldMax (init : String × ℚ) (entries : List (String × ℚ)) : String × ℚ :=
  entries.foldl (fun b e => if e.2 > b.2 then e else b) init

/-- The weakest-so-far component of the scan. -/
def foldMin (init : String × ℚ) (entries : List (String × ℚ)) : String × ℚ :=
  entries.foldl (fun b e => if e.2 < b.2 then e else b) init

lemma scanExtreme_eq (init : String × ℚ) (l : List (String × ℚ)) :
    scanExtreme init l = (foldMax init l, foldMin init l) := by
  suffices h : ∀ (a b : String × ℚ),
      l.foldl (fun sw e => ((if e.2 > sw.1.2 then e else sw.1), (if e.2 < sw.2.2 then e else sw.2))) (a, b)
        = (foldMax a l, foldMin b l) by
    exact h init init
  induction l with
  | nil => intro a b; simp [foldMax, foldMin]
  | cons x xs ih =>
    intro a b
    simp only [List.foldl_cons, foldMax, foldMin]
    exact ih _ _

lemma foldMax_char : ∀ (l : List (String × ℚ)) (init : String × ℚ),
    (foldMax init l = init ∧ ∀ x ∈ l, x.2 ≤ init.2) ∨
    (∃ l₁ e l₂, l = l₁ ++ e :: l₂ ∧ foldMax init l = e ∧ init.2 < e.2 ∧
      (∀ x ∈ l₁, x.2 < e.2) ∧ (∀ x ∈ l₂, x.2 ≤ e.2)) := by
  intro l
  induction l with
  | nil => intro init; left; simp [foldMax]
  | cons x xs ih =>
    intro init
    by_cases hx : x.2 > init.2
    · have hstep : foldMax init (x :: xs) = foldMax x xs := by
        simp [foldMax, hx]
      rcases ih x with ⟨heq, hall⟩ | ⟨l₁, e, l₂, hsplit, heq, hlt, hbefore, hafter⟩
      · right
        exact ⟨[], x, xs, by simp, by rw [hstep, heq], hx, by simp, hall⟩
      · right
        refine ⟨x :: l₁, e, l₂, by simp [hsplit], by rw [hstep, heq], lt_trans hx hlt, ?_, hafter⟩
        intro y hy
        rcases List.mem_cons.mp hy with h | h
        · exact h ▸ hlt
        · exact hbefore y h
    · have hstep : foldMax init (x :: xs) = foldMax init xs := by
        simp [foldMax, hx]
      rcases ih init with ⟨heq, hall⟩ | ⟨l₁, e, l₂, hsplit, heq, hlt, hbefore, hafter⟩
      · left
        refine ⟨by rw [hstep, heq], ?_⟩
        intro y hy
        rcases List.mem_cons.mp hy with h | h
        · exact h ▸ le_of_not_lt hx
        · exact hall y h
      · right
        refine ⟨x :: l₁, e, l₂, by simp [hsplit], by rw [hstep, heq], hlt, ?_, hafter⟩
        intro y hy
        rcases List.mem_cons.mp hy with h | h
        · exact h ▸ lt_of_le_of_lt (le_of_not_lt hx) hlt
        · exact hbefore y h

lemma foldMin_char : ∀ (l : List (String × ℚ)) (init : String × ℚ),
    (foldMin init l = init ∧ ∀ x ∈ l, init.2 ≤ x.2) ∨
    (∃ l₁ e l₂, l = l₁ ++ e :: l₂ ∧ foldMin init l = e ∧ e.2 < init.2 ∧
      (∀ x ∈ l₁, e.2 < x.2) ∧ (∀ x ∈ l₂, e.2 ≤ x.2)) := by
  intro l
  induction l with
  | nil => intro init; left; simp [foldMin]
  | cons x xs ih =>
    intro init
    by_cases hx : x.2 < init.2
    · have hstep : foldMin init (x :: xs) = foldMin x xs := by
        simp [foldMin, hx]
      rcases ih x with ⟨heq, hall⟩ | ⟨l₁, e, l₂, hsplit, heq, hlt, hbefore, hafter⟩
      · right
        exact ⟨[], x, xs, by simp, by rw [hstep, heq], hx, by simp, hall⟩
      · right
        refine ⟨x :: l₁, e, l₂, by simp [hsplit], by rw [hstep, heq], lt_trans hlt hx, ?_, hafter⟩
        intro y hy
        rcases List.mem_cons.mp hy with h | h
        · exact h ▸ hlt
        · exact hbefore y h
    · have hstep : foldMin init (x :: xs) = foldMin init xs := by
        simp [foldMin, hx]
      rcases ih init with ⟨heq, hall⟩ | ⟨l₁, e, l₂, hsplit, heq, hlt, hbefore, hafter⟩
      · left
        refine ⟨by rw [hstep, heq], ?_⟩
        intro y hy
        rcases List.mem_cons.mp hy with h | h
        · exact h ▸ le_of_not_lt hx
        · exact hall y h
      · right
        refine ⟨x :: l₁, e, l₂, by simp [hsplit], by rw [hstep, heq], hlt, ?_, hafter⟩
        intro y hy
        rcases List.mem_cons.mp hy with h | h
        · exact h ▸ lt_of_lt_of_le hlt (le_of_not_lt hx)
        · exact hbefore y h

lemma mergeSort_filter_ties {α : Type} (le : α → α → Bool)
    (htrans : ∀ a b c, le a b = true → le b c = true → le a c = true)
    (htotal : ∀ a b, (le a b || le b a) = true)
    (p : α → Bool) (hp : ∀ a b, p a = true → p b = true → le a b = true)
    (l : List α) :
    (l.mergeSort le).filter p = l.filter p := by
  have hsub : List.Sublist (l.filter p) (l.mergeSort le) := by
    refine List.sublist_mergeSort htrans htotal ?_ (List.filter_sublist l)
    refine List.pairwise_of_forall_mem_list ?_
    intro a ha b hb
    exact hp a b (List.of_mem_filter ha) (List.of_mem_filter hb)
  have hsub2 : List.Sublist (l.filter p) ((l.mergeSort le).filter p) := by
    have := hsub.filter p
    rwa [List.filter_filter, show (fun a => p a && p a) = p from by funext a; cases p a <;> simp] at this
  have hlen : ((l.mergeSort le).filter p).length = (l.filter p).length :=
    ((List.mergeSort_perm l le).filter p).length_eq
  exact (hsub2.eq_of_length hlen.symm).symm

lemma mem_enum_iff {α : Type} {l : List α} {i : ℕ} {x : α} :
    (i, x) ∈ l.enum ↔ ∃ h : i < l.length, l.get ⟨i, h⟩ = x := by
  constructor
  · intro h
    obtain ⟨hi, hx⟩ := List.mem_enum h
    exact ⟨hi, hx.symm⟩
  · rintro ⟨h, rfl⟩
    have hlen : i < l.enum.length := by simpa using h
    have : l.enum.get ⟨i, hlen⟩ = (i, l.get ⟨i, h⟩) := by
      simp [List.getElem_enum]
    rw [← this]
    exact List.get_mem _ _ _

lemma getD_eq_get {α : Type} {l : List α} {i : ℕ} (d : α) (h : i < l.length) :
    l.getD i d = l.get ⟨i, h⟩ := by
  rw [List.getD_eq_getElem?_getD, List.getElem?_eq_getElem h]
  simp

lemma calculateAverage_valid (l : List (Option ℚ)) :
    calculateAverage ((validValues l).map some) = calculateAverage l := by
  by_cases h : validValues l = []
  · simp [calculateAverage, validValues_map_some, h, validValues]
  · rw [calculateAverage_map_some _ h, calculateAverage_eq h]

lemma driverIdx_of_not_mem {d : String} (h : d ∉ driverOrderList) :
    driverIdx d = -1 := by
  have hnone : driverOrderList.indexOf? d = none := by
    rw [List.indexOf?]
    refine List.findIdx?_eq_none_iff.mpr ?_
    intro x hx
    have hne : x ≠ d := fun he => h (he ▸ hx)
    simp [hne]
  simp [driverIdx, hnone]

lemma driverIdx_nonneg_of_mem {d : String} (h : d ∈ driverOrderList) :
    0 ≤ driverIdx d := by
  have hsome : (driverOrderList.indexOf? d).isSome := by
    rw [List.indexOf?, List.findIdx?_isSome]
    exact List.any_eq_true.mpr ⟨d, h, by simp⟩
  rcases hcase : driverOrderList.indexOf? d with _ | i
  · rw [hcase] at hsome; simp at hsome
  · simp [driverIdx, hcase]

lemma map_fst_map_pair {α β : Type} (f : α → β) (l : List α) :
    (l.map (fun d => (d, f d))).map Prod.fst = l := by
  induction l with
  | nil => rfl
  | cons a l ih => simp only [List.map_cons, ih]

lemma driverLe_trans : ∀ a b c : QuestionStats,
    driverLe a b = true → driverLe b c = true → driverLe a c = true := by
  intro a b c
  simp only [driverLe, decide_eq_true_eq]
  exact le_trans

lemma driverLe_total : ∀ a b : QuestionStats, (driverLe a b || driverLe b a) = true := by
  intro a b
  simp only [driverLe, Bool.or_eq_true, decide_eq_true_eq]
  exact le_total _ _

/-!
Claim theorems.
-/

lemma calculateDriverScores_mem_value (qs : List QuestionStats) (d : String) (v : ℚ)
    (hmem : (d, v) ∈ calculateDriverScores qs) :
    (qs.filter (fun q => decide (q.driver = d))).map (fun q => q.average) ≠ [] ∧
    v = round2 ((((qs.filter (fun q => decide (q.driver = d))).map (fun q => q.average)).sum) /
          (((qs.filter (fun q => decide (q.driver = d))).map (fun q => q.average)).length)) := by
  obtain ⟨d', hd', heq⟩ := List.mem_map.mp hmem
  obtain ⟨rfl, rfl⟩ : d' = d ∧
      calculateAverage (((qs.filter (fun q => decide (q.driver = d'))).map (fun q => q.average)).map some) = v := by
    exact ⟨congrArg Prod.fst heq, congrArg Prod.snd heq⟩
  have hdin : d' ∈ qs.map (fun q => q.driver) := mem_firstSeen.mp hd'
  obtain ⟨q, hq, hqd⟩ := List.mem_map.mp hdin
  have hne : (qs.filter (fun q => decide (q.driver = d'))).map (fun q => q.average) ≠ [] := by
    have : q ∈ qs.filter (fun q => decide (q.driver = d')) :=
      List.mem_filter.mpr ⟨hq, by simp [hqd]⟩
    intro hnil
    rw [List.map_eq_nil_iff] at hnil
    rw [hnil] at this
    exact absurd this (List.not_mem_nil q)
  exact ⟨hne, calculateAverage_map_some _ hne⟩

/-- C7: the key set of `calculateDriverScores` is exactly the set of distinct
drivers appearing in the question list (with no duplicate keys, and no driver
dropped whatever its stats), and each driver's value is the mean of the
already-rounded `average` fields of that driver's questions, rounded to 2
decimal places. -/
theorem C7_driver_scores (qs : List QuestionStats) :
    (((calculateDriverScores qs).map Prod.fst).Nodup) ∧
    (∀ d, d ∈ (calculateDriverScores qs).map Prod.fst ↔ d ∈ qs.map (fun q => q.driver)) ∧
    (∀ d v, (d, v) ∈ calculateDriverScores qs →
      (qs.filter (fun q => decide (q.driver = d))).map (fun q => q.average) ≠ [] ∧
      v = round2 ((((qs.filter (fun q => decide (q.driver = d))).map (fun q => q.average)).sum) /
            (((qs.filter (fun q => decide (q.driver = d))).map (fun q => q.average)).length))) := by
  have hkeys : (calculateDriverScores qs).map Prod.fst = firstSeen (qs.map (fun q => q.driver)) :=
    map_fst_map_pair _ _
  refine ⟨?_, ?_, ?_⟩
  · rw [hkeys]; exact nodup_firstSeen _
  · intro d; rw [hkeys]; exact mem_firstSeen
  · exact fun d v hmem => calculateDriverScores_mem_value qs d v hmem

/-- Witness for C7 at a concrete two-driver list. -/
theorem C7_witness :
    ("People", calculateAverage ((([⟨1, "People", "s", "Q2", [], 3, 0, [0,0,0,0,0]⟩] :
        List QuestionStats).map (fun q => q.average)).map some)) ∈
      calculateDriverScores
        [⟨0, "Purpose", "s", "Q1", [], 4, 0, [0,0,0,0,0]⟩,
         ⟨1, "People", "s", "Q2", [], 3, 0, [0,0,0,0,0]⟩] ∧
    calculateAverage ((([⟨1, "People", "s", "Q2", [], 3, 0, [0,0,0,0,0]⟩] :
        List QuestionStats).map (fun q => q.average)).map some) =
      round2 (((([⟨0, "Purpose", "s", "Q1", [], 4, 0, [0,0,0,0,0]⟩,
         ⟨1, "People", "s", "Q2", [], 3, 0, [0,0,0,0,0]⟩] :
        List QuestionStats).filter (fun q => decide (q.driver = "People"))).map
          (fun q => q.average)).sum /
        ((([⟨0, "Purpose", "s", "Q1", [], 4, 0, [0,0,0,0,0]⟩,
         ⟨1, "People", "s", "Q2", [], 3, 0, [0,0,0,0,0]⟩] :
        List QuestionStats).filter (fun q => decide (q.driver = "People"))).map
          (fun q => q.average)).length) := by
  have hmem : ("People", calculateAverage ((([⟨1, "People", "s", "Q2", [], 3, 0, [0,0,0,0,0]⟩] :
        List QuestionStats).map (fun q => q.average)).map some)) ∈
      calculateDriverScores
        [⟨0, "Purpose", "s", "Q1", [], 4, 0, [0,0,0,0,0]⟩,
         ⟨1, "People", "s", "Q2", [], 3, 0, [0,0,0,0,0]⟩] := by
    simp [calculateDriverScores, firstSeen]
  refine ⟨hmem, ?_⟩
  have h := (C7_driver_scores
    [⟨0, "Purpose", "s", "Q1", [], 4, 0, [0,0,0,0,0]⟩,
     ⟨1, "People", "s", "Q2", [], 3, 0, [0,0,0,0,0]⟩]).2.2 "People" _ hmem
  have hfilter : (([⟨0, "Purpose", "s", "Q1", [], 4, 0, [0,0,0,0,0]⟩,
         ⟨1, "People", "s", "Q2", [], 3, 0, [0,0,0,0,0]⟩] :
        List QuestionStats).filter (fun q => decide (q.driver = "People"))) =
      [⟨1, "People", "s", "Q2", [], 3, 0, [0,0,0,0,0]⟩] := by decide
  rw [← hfilter]
  exact h.2

lemma foldMax_cons_self (a : String × ℚ) (l : List (String × ℚ)) :
    foldMax a (a :: l) = foldMax a l := by
  simp [foldMax, lt_irrefl]

lemma foldMin_cons_self (a : String × ℚ) (l : List (String × ℚ)) :
    foldMin a (a :: l) = foldMin a l := by
  simp [foldMin, lt_irrefl]

lemma all_eq_false_of_exists_gt {x e : String × ℚ} {l : List (String × ℚ)}
    (he : e ∈ l) (hgt : x.2 < e.2) :
    (l.all (fun y => decide (y.2 ≤ x.2))) = false := by
  rcases hall : l.all (fun y => decide (y.2 ≤ x.2)) with _ | _
  · rfl
  · have := List.all_eq_true.mp hall e he
    rw [decide_eq_true_eq] at this
    exact absurd this (not_le.mpr hgt)

lemma all_eq_false_of_exists_lt {x e : String × ℚ} {l : List (String × ℚ)}
    (he : e ∈ l) (hlt : e.2 < x.2) :
    (l.all (fun y => decide (x.2 ≤ y.2))) = false := by
  rcases hall : l.all (fun y => decide (x.2 ≤ y.2)) with _ | _
  · rfl
  · have := List.all_eq_true.mp hall e he
    rw [decide_eq_true_eq] at this
    exact absurd this (not_le.mpr hlt)

lemma foldMax_eq_find (d : String × ℚ) (ds : List (String × ℚ)) :
    (d :: ds).find? (fun x => (d :: ds).all (fun y => decide (y.2 ≤ x.2))) =
      some (foldMax d (d :: ds)) := by
  rw [foldMax_cons_self]
  rcases foldMax_char ds d with ⟨heq, hall⟩ | ⟨l₁, e, l₂, hsplit, heq, hlt, hbefore, hafter⟩
  · rw [heq]
    refine List.find?_cons_of_pos _ ?_
    refine List.all_eq_true.mpr ?_
    intro y hy
    rw [decide_eq_true_eq]
    rcases List.mem_cons.mp hy with h | h
    · exact h ▸ le_refl _
    · exact hall y h
  · rw [heq, hsplit]
    have hemem : e ∈ d :: (l₁ ++ e :: l₂) := by simp
    refine find?_eq_some_of_split _ (d :: l₁) l₂ e ?_ ?_
    · intro x hx
      refine all_eq_false_of_exists_gt hemem ?_
      rcases List.mem_cons.mp hx with h | h
      · exact h ▸ hlt
      · exact hbefore x h
    · refine List.all_eq_true.mpr ?_
      intro y hy
      rw [decide_eq_true_eq]
      rcases List.mem_cons.mp hy with h | h
      · exact h ▸ le_of_lt hlt
      · rcases List.mem_append.mp h with h2 | h2
        · exact le_of_lt (hbefore y h2)
        · rcases List.mem_cons.mp h2 with h3 | h3
          · exact h3 ▸ le_refl _
          · exact hafter y h3

lemma foldMin_eq_find (d : String × ℚ) (ds : List (String × ℚ)) :
    (d :: ds).find? (fun x => (d :: ds).all (fun y => decide (x.2 ≤ y.2))) =
      some (foldMin d (d :: ds)) := by
  rw [foldMin_cons_self]
  rcases foldMin_char ds d with ⟨heq, hall⟩ | ⟨l₁, e, l₂, hsplit, heq, hlt, hbefore, hafter⟩
  · rw [heq]
    refine List.find?_cons_of_pos _ ?_
    refine List.all_eq_true.mpr ?_
    intro y hy
    rw [decide_eq_true_eq]
    rcases List.mem_cons.mp hy with h | h
    · exact h ▸ le_refl _
    · exact hall y h
  · rw [heq, hsplit]
    have hemem : e ∈ d :: (l₁ ++ e :: l₂) := by simp
    refine find?_eq_some_of_split _ (d :: l₁) l₂ e ?_ ?_
    · intro x hx
      refine all_eq_false_of_exists_lt hemem ?_
      rcases List.mem_cons.mp hx with h | h
      · exact h ▸ hlt
      · exact hbefore x h
    · refine List.all_eq_true.mpr ?_
      intro y hy
      rw [decide_eq_true_eq]
      rcases List.mem_cons.mp hy with h | h
      · exact h ▸ le_of_lt hlt
      · rcases List.mem_append.mp h with h2 | h2
        · exact le_of_lt (hbefore y h2)
        · rcases List.mem_cons.mp h2 with h3 | h3
          · exact h3 ▸ le_refl _
          · exact hafter y h3

/-- C5: `findExtremeDrivers` on empty input yields `(none, none)`; on a single
entry that entry is both strongest and weakest; on any input the strongest
(resp. weakest) is the first entry dominating (resp. dominated by) every
entry — the first-seen entry wins all ties, since only a strictly greater
(resp. smaller) score replaces the current one — and the per-respondent
`highestDriver`/`lowestDriver` of `calculateRespondentSummaries` are given by
the same scan over that respondent's driver scores. -/
theorem C5_extreme_drivers :
    (findExtremeDrivers [] = (none, none)) ∧
    (∀ e : String × ℚ, findExtremeDrivers [e] = (some e, some e)) ∧
    (∀ l : List (String × ℚ),
      findExtremeDrivers l =
        (l.find? (fun x => l.all (fun y => decide (y.2 ≤ x.2))),
         l.find? (fun x => l.all (fun y => decide (x.2 ≤ y.2))))) ∧
    (∀ (r : Respondent) (qs : List QuestionStats) (summ : RespondentSummary),
      summarizeRespondent r qs = some summ →
      findExtremeDrivers summ.driverScores = (some summ.highestDriver, some summ.lowestDriver)) := by
  refine ⟨rfl, ?_, ?_, ?_⟩
  · intro e
    simp [findExtremeDrivers, scanExtreme, lt_irrefl]
  · intro l
    rcases l with _ | ⟨d, ds⟩
    · rfl
    · rw [findExtremeDrivers]
      rw [scanExtreme_eq, foldMax_eq_find, foldMin_eq_find]
  · intro r qs summ h
    rcases hds : respondentDriverScoresOf r qs with _ | ⟨e, es⟩
    · rw [summarizeRespondent, hds] at h
      exact absurd h (by simp)
    · rw [summarizeRespondent, hds] at h
      have hsumm := Option.some.inj h
      rw [← hsumm]
      rw [findExtremeDrivers]

/-- Witness for C5 at concrete inputs: a tie on the maximum is won by the
first entry, and a singleton is both strongest and weakest. -/
theorem C5_witness :
    findExtremeDrivers [(("A" : String), (3 : ℚ))] = (some ("A", 3), some ("A", 3)) ∧
    findExtremeDrivers [(("A" : String), (3 : ℚ)), ("B", 3), ("C", 1)] =
      ([(("A" : String), (3 : ℚ)), ("B", 3), ("C", 1)].find?
         (fun x => [(("A" : String), (3 : ℚ)), ("B", 3), ("C", 1)].all (fun y => decide (y.2 ≤ x.2))),
       [(("A" : String), (3 : ℚ)), ("B", 3), ("C", 1)].find?
         (fun x => [(("A" : String), (3 : ℚ)), ("B", 3), ("C", 1)].all (fun y => decide (x.2 ≤ y.2)))) ∧
    findExtremeDrivers [(("A" : String), (3 : ℚ)), ("B", 3), ("C", 1)] =
      (some ("A", 3), some ("C", 1)) := by
  refine ⟨C5_extreme_drivers.2.1 _, C5_extreme_drivers.2.2.1 _, ?_⟩
  decide

/-- C6: `sortByDriverOrder` is a stable sort keyed by the position of each
question's driver in the fixed priority list (Purpose, People, Plan, Product,
Profit): the output is a permutation of the input, sorted by key; questions
with equal keys keep their relative input order (the filter at any key is
unchanged); a driver absent from the list has key -1 and a listed driver a
key ≥ 0, so every unknown-driver question is ordered before every
listed-driver question. -/
theorem C6_sort_by_driver_order (l : List QuestionStats) :
    (sortByDriverOrder l).Perm l ∧
    (sortByDriverOrder l).Pairwise (fun a b => driverIdx a.driver ≤ driverIdx b.driver) ∧
    (∀ k : ℤ, (sortByDriverOrder l).filter (fun q => decide (driverIdx q.driver = k)) =
      l.filter (fun q => decide (driverIdx q.driver = k))) ∧
    (∀ d, d ∉ driverOrderList → driverIdx d = -1) ∧
    (∀ d, d ∈ driverOrderList → 0 ≤ driverIdx d) ∧
    (∀ (i j : ℕ) (hi : i < (sortByDriverOrder l).length) (hj : j < (sortByDriverOrder l).length),
      ((sortByDriverOrder l).get ⟨i, hi⟩).driver ∉ driverOrderList →
      ((sortByDriverOrder l).get ⟨j, hj⟩).driver ∈ driverOrderList → i < j) := by
  have hpair : (sortByDriverOrder l).Pairwise (fun a b => driverIdx a.driver ≤ driverIdx b.driver) := by
    have := List.sorted_mergeSort driverLe_trans driverLe_total l
    refine this.imp ?_
    intro a b hab
    exact of_decide_eq_true hab
  refine ⟨List.mergeSort_perm l driverLe, hpair, ?_, ?_, ?_, ?_⟩
  · intro k
    refine mergeSort_filter_ties driverLe driverLe_trans driverLe_total _ ?_ l
    intro a b ha hb
    rw [decide_eq_true_eq] at ha hb
    simp [driverLe, ha, hb]
  · exact fun d => driverIdx_of_not_mem
  · exact fun d => driverIdx_nonneg_of_mem
  · intro i j hi hj hnot hmem
    rcases lt_trichotomy i j with h | h | h
    · exact h
    · exfalso
      apply hnot
      have hfin : (⟨i, hi⟩ : Fin (sortByDriverOrder l).length) = ⟨j, hj⟩ := Fin.ext h
      rw [hfin]
      exact hmem
    · exfalso
      have hle := List.pairwise_iff_get.mp hpair ⟨j, hj⟩ ⟨i, hi⟩ h
      have h1 : driverIdx (((sortByDriverOrder l).get ⟨i, hi⟩).driver) = -1 :=
        driverIdx_of_not_mem hnot
      have h2 : 0 ≤ driverIdx (((sortByDriverOrder l).get ⟨j, hj⟩).driver) :=
        driverIdx_nonneg_of_mem hmem
      rw [h1] at hle
      omega

/-- Witness for C6 at a concrete list with an unknown driver coming after a
listed one. -/
theorem C6_witness :
    (sortByDriverOrder
      [⟨0, "Purpose", "s", "Q1", [], 0, 0, [0,0,0,0,0]⟩,
       ⟨1, "Zed", "s", "Q2", [], 0, 0, [0,0,0,0,0]⟩]).Perm
      [⟨0, "Purpose", "s", "Q1", [], 0, 0, [0,0,0,0,0]⟩,
       ⟨1, "Zed", "s", "Q2", [], 0, 0, [0,0,0,0,0]⟩] ∧
    driverIdx "Zed" = -1 ∧
    (0 : ℤ) ≤ driverIdx "Purpose" ∧
    (sortByDriverOrder
      [⟨0, "Purpose", "s", "Q1", [], 0, 0, [0,0,0,0,0]⟩,
       ⟨1, "Zed", "s", "Q2", [], 0, 0, [0,0,0,0,0]⟩]).filter
        (fun q => decide (driverIdx q.driver = -1)) =
      ([⟨0, "Purpose", "s", "Q1", [], 0, 0, [0,0,0,0,0]⟩,
        ⟨1, "Zed", "s", "Q2", [], 0, 0, [0,0,0,0,0]⟩] : List QuestionStats).filter
        (fun q => decide (driverIdx q.driver = -1)) := by
  refine ⟨(C6_sort_by_driver_order _).1,
    (C6_sort_by_driver_order []).2.2.2.1 "Zed" (by decide),
    (C6_sort_by_driver_order []).2.2.2.2.1 "Purpose" (by decide),
    (C6_sort_by_driver_order _).2.2.1 (-1)⟩

lemma proj_props (qs X : List QuestionStats) (hperm : X.Perm qs) (hnd : qs.Nodup) :
    (sortByDriverOrder (X.take 8)).length = min 8 qs.length ∧
    (sortByDriverOrder (X.take 8)).Nodup ∧
    (∀ x ∈ sortByDriverOrder (X.take 8), x ∈ qs) := by
  have hXnd : X.Nodup := hperm.nodup_iff.mpr hnd
  have hsortperm : (sortByDriverOrder (X.take 8)).Perm (X.take 8) :=
    List.mergeSort_perm _ driverLe
  refine ⟨?_, ?_, ?_⟩
  · rw [hsortperm.length_eq, List.length_take, hperm.length_eq]
  · exact hsortperm.nodup_iff.mpr ((List.take_sublist 8 X).nodup hXnd)
  · intro x hx
    have h1 : x ∈ X.take 8 := hsortperm.mem_iff.mp hx
    have h2 : x ∈ X := (List.take_sublist 8 X).subset h1
    exact hperm.mem_iff.mp h2

/-- Concrete nine-question stats list in which every question has the same
average, the same std dev, and the same driver; only the text differs. -/
def cexStats : List QuestionStats :=
  [⟨0, "Purpose", "s", "q0", [], 0, 0, [0,0,0,0,0]⟩,
   ⟨1, "Purpose", "s", "q1", [], 0, 0, [0,0,0,0,0]⟩,
   ⟨2, "Purpose", "s", "q2", [], 0, 0, [0,0,0,0,0]⟩,
   ⟨3, "Purpose", "s", "q3", [], 0, 0, [0,0,0,0,0]⟩,
   ⟨4, "Purpose", "s", "q4", [], 0, 0, [0,0,0,0,0]⟩,
   ⟨5, "Purpose", "s", "q5", [], 0, 0, [0,0,0,0,0]⟩,
   ⟨6, "Purpose", "s", "q6", [], 0, 0, [0,0,0,0,0]⟩,
   ⟨7, "Purpose", "s", "q7", [], 0, 0, [0,0,0,0,0]⟩,
   ⟨8, "Purpose", "s", "q8", [], 0, 0, [0,0,0,0,0]⟩]

/-- Modelled from the spec: the claimed lowest-scoring projection, namely the
first 8 entries of the full stable ascending-average sort, subsequently
re-ordered by `sortByDriverOrder`. -/
def claimedLowestScore (qs : List QuestionStats) : List QuestionStats :=
  sortByDriverOrder ((qs.mergeSort (fun a b => decide (a.average ≤ b.average))).take 8)

/-- C4 counterexample: on nine questions with equal averages, the code's
`sortedByLowestScore` (reverse of the stable descending sort, then take 8)
differs from the first 8 entries of the stable ascending sort: the code drops
the first question and keeps the ties in reverse input order. -/
theorem C4_counterexample : sortedByLowestScore cexStats ≠ claimedLowestScore cexStats := by
  have hdesc : cexStats.mergeSort avgDescLe = cexStats :=
    List.mergeSort_of_sorted
      (List.pairwise_of_forall_mem_list (by decide))
  have hasc : cexStats.mergeSort (fun a b => decide (a.average ≤ b.average)) = cexStats :=
    List.mergeSort_of_sorted
      (List.pairwise_of_forall_mem_list (by decide))
  rw [sortedByLowestScore, claimedLowestScore, sortedByAverage, hdesc, hasc]
  rw [show cexStats.reverse.take 8 =
      [⟨8, "Purpose", "s", "q8", [], 0, 0, [0,0,0,0,0]⟩,
       ⟨7, "Purpose", "s", "q7", [], 0, 0, [0,0,0,0,0]⟩,
       ⟨6, "Purpose", "s", "q6", [], 0, 0, [0,0,0,0,0]⟩,
       ⟨5, "Purpose", "s", "q5", [], 0, 0, [0,0,0,0,0]⟩,
       ⟨4, "Purpose", "s", "q4", [], 0, 0, [0,0,0,0,0]⟩,
       ⟨3, "Purpose", "s", "q3", [], 0, 0, [0,0,0,0,0]⟩,
       ⟨2, "Purpose", "s", "q2", [], 0, 0, [0,0,0,0,0]⟩,
       ⟨1, "Purpose", "s", "q1", [], 0, 0, [0,0,0,0,0]⟩] from by decide]
  rw [show cexStats.take 8 =
      [⟨0, "Purpose", "s", "q0", [], 0, 0, [0,0,0,0,0]⟩,
       ⟨1, "Purpose", "s", "q1", [], 0, 0, [0,0,0,0,0]⟩,
       ⟨2, "Purpose", "s", "q2", [], 0, 0, [0,0,0,0,0]⟩,
       ⟨3, "Purpose", "s", "q3", [], 0, 0, [0,0,0,0,0]⟩,
       ⟨4, "Purpose", "s", "q4", [], 0, 0, [0,0,0,0,0]⟩,
       ⟨5, "Purpose", "s", "q5", [], 0, 0, [0,0,0,0,0]⟩,
       ⟨6, "Purpose", "s", "q6", [], 0, 0, [0,0,0,0,0]⟩,
       ⟨7, "Purpose", "s", "q7", [], 0, 0, [0,0,0,0,0]⟩] from by decide]
  rw [sortByDriverOrder, sortByDriverOrder]
  rw [List.mergeSort_of_sorted (List.pairwise_of_forall_mem_list (by decide))]
  rw [List.mergeSort_of_sorted (List.pairwise_of_forall_mem_list (by decide))]
  decide

/-- C4 (amended): each of the four projections has exactly `min 8 N` entries,
no duplicates (for duplicate-free input), and is a subset of the full question
list; most-aligned, most-different and highest-scoring are the first
`min 8 N` entries of the corresponding full stable sort (ascending stdDev,
descending stdDev, descending average), re-ordered by `sortByDriverOrder`,
while lowest-scoring is the first `min 8 N` entries of the REVERSE of the
full stable descending-average sort (so ties are taken in reverse input
order), re-ordered by `sortByDriverOrder`. -/
theorem C4_amended_projections (qs : List QuestionStats) (hnd : qs.Nodup) :
    ((sortedByAlignment qs).length = min 8 qs.length ∧ (sortedByAlignment qs).Nodup ∧
      (∀ x ∈ sortedByAlignment qs, x ∈ qs) ∧
      sortedByAlignment qs = sortByDriverOrder ((qs.mergeSort stdDevAscLe).take 8)) ∧
    ((sortedByDifference qs).length = min 8 qs.length ∧ (sortedByDifference qs).Nodup ∧
      (∀ x ∈ sortedByDifference qs, x ∈ qs) ∧
      sortedByDifference qs = sortByDriverOrder ((qs.mergeSort stdDevDescLe).take 8)) ∧
    ((sortedByHighestScore qs).length = min 8 qs.length ∧ (sortedByHighestScore qs).Nodup ∧
      (∀ x ∈ sortedByHighestScore qs, x ∈ qs) ∧
      sortedByHighestScore qs = sortByDriverOrder ((qs.mergeSort avgDescLe).take 8)) ∧
    ((sortedByLowestScore qs).length = min 8 qs.length ∧ (sortedByLowestScore qs).Nodup ∧
      (∀ x ∈ sortedByLowestScore qs, x ∈ qs) ∧
      sortedByLowestScore qs = sortByDriverOrder (((qs.mergeSort avgDescLe).reverse).take 8)) := by
  have h1 := proj_props qs (qs.mergeSort stdDevAscLe) (List.mergeSort_perm qs _) hnd
  have h2 := proj_props qs (qs.mergeSort stdDevDescLe) (List.mergeSort_perm qs _) hnd
  have h3 := proj_props qs (qs.mergeSort avgDescLe) (List.mergeSort_perm qs _) hnd
  have h4 := proj_props qs ((qs.mergeSort avgDescLe).reverse)
    ((List.reverse_perm _).trans (List.mergeSort_perm qs _)) hnd
  exact ⟨⟨h1.1, h1.2.1, h1.2.2, rfl⟩, ⟨h2.1, h2.2.1, h2.2.2, rfl⟩,
    ⟨h3.1, h3.2.1, h3.2.2, rfl⟩, ⟨h4.1, h4.2.1, h4.2.2, rfl⟩⟩

/-- Witness for C4 (amended) at the concrete nine-question list. -/
theorem C4_amended_witness :
    (sortedByAlignment cexStats).length = min 8 cexStats.length ∧
    (sortedByLowestScore cexStats).length = min 8 cexStats.length ∧
    (sortedByLowestScore cexStats).Nodup ∧
    sortedByLowestScore cexStats =
      sortByDriverOrder (((cexStats.mergeSort avgDescLe).reverse).take 8) := by
  have h := C4_amended_projections cexStats (by decide)
  exact ⟨h.1.1, h.2.2.2.1, h.2.2.2.2.1, h.2.2.2.2.2.2⟩

lemma outlierQuestionsOf_summ {r : Respondent} {qs : List QuestionStats}
    {summ : RespondentSummary} (h : summarizeRespondent r qs = some summ) :
    summ.outlierQuestions = outlierQuestionsOf r qs := by
  rcases hds : respondentDriverScoresOf r qs with _ | ⟨e, es⟩
  · rw [summarizeRespondent, hds] at h
    exact absurd h (by simp)
  · rw [summarizeRespondent, hds] at h
    rw [← Option.some.inj h]

/-- C3: a respondent's `outlierQuestions` contains an entry for question index
`i` exactly when the respondent's score there is non-missing and differs from
that question's (already rounded) team average by at least 1.5 (the boundary
is inclusive since the comparison is `≥`); the entry carries the question
text, the respondent's score, the team average, and the signed difference
rounded to 2 decimals; a missing score never produces an entry. -/
theorem C3_outlier_entries (r : Respondent) (qs : List QuestionStats)
    (summ : RespondentSummary) (h : summarizeRespondent r qs = some summ)
    (o : OutlierEntry) :
    o ∈ summ.outlierQuestions ↔
      ∃ (i : ℕ) (hi : i < qs.length) (s : ℚ),
        r.scores.getD i none = some s ∧
        3/2 ≤ |s - (qs.get ⟨i, hi⟩).average| ∧
        o = { questionIndex := i, question := (qs.get ⟨i, hi⟩).text,
              respondentScore := s, teamAverage := (qs.get ⟨i, hi⟩).average,
              difference := round2 (s - (qs.get ⟨i, hi⟩).average) } := by
  rw [outlierQuestionsOf_summ h, outlierQuestionsOf]
  rw [List.mem_filterMap]
  constructor
  · rintro ⟨⟨i, q⟩, hmem, hf⟩
    obtain ⟨hi, hq⟩ := mem_enum_iff.mp hmem
    dsimp only at hf
    rcases hscore : r.scores.getD i none with _ | s
    · rw [hscore] at hf
      exact absurd hf (by simp)
    · rw [hscore] at hf
      dsimp only at hf
      by_cases hcond : 3/2 ≤ |s - q.average|
      · rw [if_pos hcond] at hf
        refine ⟨i, hi, s, hscore, hq ▸ hcond, ?_⟩
        rw [hq]
        exact (Option.some.inj hf).symm
      · rw [if_neg hcond] at hf
        exact absurd hf (by simp)
  · rintro ⟨i, hi, s, hscore, hcond, rfl⟩
    refine ⟨(i, qs.get ⟨i, hi⟩), mem_enum_iff.mpr ⟨hi, rfl⟩, ?_⟩
    dsimp only
    rw [hscore]
    dsimp only
    rw [if_pos hcond]

/-- Concrete two-question stats list for the outlier witnesses: team averages
3.5 and 3.5001. -/
def qsBoundary : List QuestionStats :=
  [⟨0, "Purpose", "s", "Q1", [], 7/2, 0, [0,0,0,0,0]⟩,
   ⟨1, "Purpose", "s", "Q2", [], 35001/10000, 0, [0,0,0,0,0]⟩]

/-- Concrete respondent scoring 5 on both questions: the differences are
exactly 1.5 and 1.4999. -/
def rBoundary : Respondent := ⟨"R", [some 5, some 5]⟩

/-- The summary produced for `rBoundary` against `qsBoundary`. -/
def summBoundary : RespondentSummary :=
  { name := "R", scores := [some 5, some 5],
    overallAverage := calculateAverage [some 5, some 5],
    driverScores := [("Purpose", calculateAverage [some 5, some 5])],
    highestDriver := ("Purpose", calculateAverage [some 5, some 5]),
    lowestDriver := ("Purpose", calculateAverage [some 5, some 5]),
    outlierQuestions := outlierQuestionsOf rBoundary qsBoundary }

lemma summarize_boundary :
    summarizeRespondent rBoundary qsBoundary = some summBoundary := by
  have hds : respondentDriverScoresOf rBoundary qsBoundary =
      [("Purpose", calculateAverage [some 5, some 5])] := by
    have hpairs : respScoredPairs rBoundary qsBoundary =
        [("Purpose", 5), ("Purpose", 5)] := by
      simp [respScoredPairs, rBoundary, qsBoundary, List.enum]
    rw [respondentDriverScoresOf, hpairs]
    rw [show firstSeen ((([("Purpose", (5:ℚ)), ("Purpose", 5)]).map Prod.fst)) = ["Purpose"] from by
      simp [firstSeen]]
    simp
  rw [summarizeRespondent, hds]
  rw [summBoundary]
  simp [scanExtreme, rBoundary]

/-- Witness for C3: the entry with difference exactly 1.5 is present (inclusive
boundary) and the question with difference 1.4999 produces no entry. -/
theorem C3_witness :
    summarizeRespondent rBoundary qsBoundary = some summBoundary ∧
    ({ questionIndex := 0, question := "Q1", respondentScore := 5, teamAverage := 7/2,
       difference := round2 (5 - 7/2) } : OutlierEntry) ∈ summBoundary.outlierQuestions ∧
    ({ questionIndex := 1, question := "Q2", respondentScore := 5, teamAverage := 35001/10000,
       difference := round2 (5 - 35001/10000) } : OutlierEntry) ∉ summBoundary.outlierQuestions := by
  have h0 : (0 : ℕ) < qsBoundary.length := by norm_num [qsBoundary]
  have hsc : rBoundary.scores.getD 0 none = some 5 := by simp [rBoundary]
  have hcnd : 3/2 ≤ |(5 : ℚ) - (qsBoundary.get ⟨0, h0⟩).average| := by
    rw [show (qsBoundary.get ⟨0, h0⟩).average = 7/2 from rfl]
    rw [abs_of_nonneg (by norm_num : (0 : ℚ) ≤ 5 - 7/2)]
    norm_num
  refine ⟨summarize_boundary, ?_, ?_⟩
  · exact (C3_outlier_entries rBoundary qsBoundary summBoundary summarize_boundary _).mpr
      ⟨0, h0, 5, hsc, hcnd, rfl⟩
  · intro hmem
    obtain ⟨i, hi, s, hscore, hcond, heq⟩ :=
      (C3_outlier_entries rBoundary qsBoundary summBoundary summarize_boundary _).mp hmem
    have hidx : i = 1 := by
      have := congrArg OutlierEntry.questionIndex heq
      simpa using this.symm
    subst hidx
    have hs5 : s = 5 := by
      have h5 : rBoundary.scores.getD 1 none = some 5 := by simp [rBoundary]
      rw [h5] at hscore
      exact (Option.some.inj hscore).symm
    subst hs5
    have havg : (qsBoundary.get ⟨1, hi⟩).average = 35001/10000 := by
      simp [qsBoundary]
    rw [havg] at hcond
    rw [abs_of_nonneg (by norm_num)] at hcond
    norm_num at hcond

lemma summarizeRespondent_isSome {r : Respondent} {qs : List QuestionStats}
    (h : ∃ (i : ℕ) (hi : i < qs.length) (s : ℚ), r.scores.getD i none = some s) :
    ∃ summ, summarizeRespondent r qs = some summ := by
  obtain ⟨i, hi, s, hs⟩ := h
  have hpair : ((qs.get ⟨i, hi⟩).driver, s) ∈ respScoredPairs r qs := by
    refine List.mem_filterMap.mpr ⟨(i, qs.get ⟨i, hi⟩), mem_enum_iff.mpr ⟨hi, rfl⟩, ?_⟩
    dsimp only
    rw [hs]
  have hpairs_ne : respScoredPairs r qs ≠ [] := List.ne_nil_of_mem hpair
  have hds_ne : respondentDriverScoresOf r qs ≠ [] := by
    rw [respondentDriverScoresOf]
    rcases hp : respScoredPairs r qs with _ | ⟨a, l⟩
    · exact absurd hp hpairs_ne
    · rw [show ((a :: l).map Prod.fst) = a.1 :: l.map Prod.fst from rfl, firstSeen]
      simp
  rcases hds : respondentDriverScoresOf r qs with _ | ⟨e, es⟩
  · exact absurd hds hds_ne
  · exact ⟨_, by rw [summarizeRespondent, hds]⟩

lemma calculateRespondentSummaries_isSome {qs : List QuestionStats} :
    ∀ {rs : List Respondent},
    (∀ r ∈ rs, ∃ summ, summarizeRespondent r qs = some summ) →
    ∃ l, calculateRespondentSummaries rs qs = some l := by
  intro rs
  induction rs with
  | nil => exact fun _ => ⟨[], rfl⟩
  | cons r rs ih =>
    intro h
    obtain ⟨s, hs⟩ := h r (by simp)
    obtain ⟨l, hl⟩ := ih (fun r' hr' => h r' (by simp [hr']))
    exact ⟨s :: l, by rw [calculateRespondentSummaries, hs, hl]⟩

/-- C10: given well-formed input — respondents whose score sequences have the
same length as the question taxonomy and contain at least one non-missing
score — `calculateAll` never fails: every respondent's per-driver entry list
is non-empty, so the indexing that builds `highestDriver`/`lowestDriver` from
its first entry never hits an undefined value. -/
theorem C10_well_formed_no_throw (questions : List Question) (respondents : List Respondent)
    (h : ∀ r ∈ respondents, r.scores.length = questions.length ∧ ∃ x ∈ r.scores, x ≠ none) :
    (calculateAll respondents questions).isSome = true := by
  have hstats : (calculateQuestionStats questions).length = questions.length := by
    simp [calculateQuestionStats]
  have hall : ∀ r ∈ respondents,
      ∃ summ, summarizeRespondent r (calculateQuestionStats questions) = some summ := by
    intro r hr
    obtain ⟨hlen, x, hx, hxne⟩ := h r hr
    obtain ⟨⟨i, hi⟩, hget⟩ := List.mem_iff_get.mp hx
    obtain ⟨s, rfl⟩ := Option.ne_none_iff_exists'.mp hxne
    refine summarizeRespondent_isSome ⟨i, ?_, s, ?_⟩
    · rw [hstats, ← hlen]
      exact hi
    · rw [getD_eq_get none hi, hget]
  obtain ⟨l, hl⟩ := calculateRespondentSummaries_isSome hall
  simp [calculateAll, hl]

/-- Witness for C10 at a concrete one-question, one-respondent input. -/
theorem C10_witness :
    (calculateAll [⟨"R1", [some 5]⟩] [⟨0, "Purpose", "s", "Q1", [some 5]⟩]).isSome = true :=
  C10_well_formed_no_throw _ _ (by decide)

lemma respondentDriverScores_mem_value (r : Respondent) (qs : List QuestionStats)
    (d : String) (v : ℚ) (hmem : (d, v) ∈ respondentDriverScoresOf r qs) :
    ((respScoredPairs r qs).filter (fun p => decide (p.1 = d))).map Prod.snd ≠ [] ∧
    v = round2 (((((respScoredPairs r qs).filter (fun p => decide (p.1 = d))).map Prod.snd).sum) /
          ((((respScoredPairs r qs).filter (fun p => decide (p.1 = d))).map Prod.snd).length)) := by
  obtain ⟨d', hd', heq⟩ := List.mem_map.mp hmem
  obtain ⟨rfl, rfl⟩ : d' = d ∧
      calculateAverage ((((respScoredPairs r qs).filter (fun p => decide (p.1 = d'))).map Prod.snd).map some) = v := by
    exact ⟨congrArg Prod.fst heq, congrArg Prod.snd heq⟩
  have hdin : d' ∈ (respScoredPairs r qs).map Prod.fst := mem_firstSeen.mp hd'
  obtain ⟨p, hp, hpd⟩ := List.mem_map.mp hdin
  have hne : ((respScoredPairs r qs).filter (fun q => decide (q.1 = d'))).map Prod.snd ≠ [] := by
    have : p ∈ (respScoredPairs r qs).filter (fun q => decide (q.1 = d')) :=
      List.mem_filter.mpr ⟨hp, by simp [hpd]⟩
    intro hnil
    rw [List.map_eq_nil_iff] at hnil
    rw [hnil] at this
    exact absurd this (List.not_mem_nil p)
  exact ⟨hne, calculateAverage_map_some _ hne⟩

lemma summ_fields {r : Respondent} {qs : List QuestionStats} {summ : RespondentSummary}
    (h : summarizeRespondent r qs = some summ) :
    summ.overallAverage = calculateAverage r.scores ∧
    summ.driverScores = respondentDriverScoresOf r qs := by
  rcases hds : respondentDriverScoresOf r qs with _ | ⟨e, es⟩
  · rw [summarizeRespondent, hds] at h
    exact absurd h (by simp)
  · rw [summarizeRespondent, hds] at h
    rw [← Option.some.inj h]
    exact ⟨rfl, rfl⟩

/-- C2: every derived decimal quantity is rounded to 2 decimal places with
round-half-up at the point of derivation, and the rounded value is what later
computations reuse: `round2` rounds any nonnegative value with third decimal
digit 5 or more upward (and truncates otherwise); the question average is the
rounded exact mean; the question stdDev is the rounded square root of the
mean squared deviation from the already-rounded average; each driver score is
the rounded mean of the already-rounded question averages; each respondent's
overall average and per-driver averages are rounded means; each outlier
difference is the rounded difference between the score and the already-rounded
team average. -/
theorem C2_rounding_discipline :
    (∀ q : ℚ, 0 ≤ q →
      (((⌊q * 100⌋ : ℚ) + 1/2 ≤ q * 100 → round2 q = ((⌊q * 100⌋ : ℚ) + 1) / 100) ∧
       (q * 100 < (⌊q * 100⌋ : ℚ) + 1/2 → round2 q = (⌊q * 100⌋ : ℚ) / 100))) ∧
    (∀ values : List (Option ℚ), validValues values ≠ [] →
      calculateAverage values = round2 ((validValues values).sum / (validValues values).length)) ∧
    (∀ values : List (Option ℚ), validValues values ≠ [] →
      calculateStdDev values =
        rsqrt2 (((validValues values).map (fun x => (x - calculateAverage values) ^ 2)).sum /
          (validValues values).length)) ∧
    (∀ (qs : List QuestionStats) (d : String) (v : ℚ), (d, v) ∈ calculateDriverScores qs →
      v = round2 ((((qs.filter (fun q => decide (q.driver = d))).map (fun q => q.average)).sum) /
            (((qs.filter (fun q => decide (q.driver = d))).map (fun q => q.average)).length))) ∧
    (∀ (r : Respondent) (qs : List QuestionStats) (summ : RespondentSummary),
      summarizeRespondent r qs = some summ →
        (summ.overallAverage = calculateAverage r.scores) ∧
        (∀ d v, (d, v) ∈ summ.driverScores →
          v = round2 (((((respScoredPairs r qs).filter (fun p => decide (p.1 = d))).map Prod.snd).sum) /
                ((((respScoredPairs r qs).filter (fun p => decide (p.1 = d))).map Prod.snd).length))) ∧
        (∀ o ∈ summ.outlierQuestions, o.difference = round2 (o.respondentScore - o.teamAverage))) := by
  refine ⟨?_, ?_, ?_, ?_, ?_⟩
  · intro q hq
    rw [round2_of_nonneg hq]
    constructor
    · intro hup
      have hfl : ⌊q * 100 + 1/2⌋ = ⌊q * 100⌋ + 1 := by
        refine Int.floor_eq_iff.mpr ⟨?_, ?_⟩
        · push_cast
          linarith
        · have := Int.lt_floor_add_one (q * 100)
          push_cast
          linarith
      rw [hfl]
      push_cast
      ring_nf
    · intro hdown
      have hfl : ⌊q * 100 + 1/2⌋ = ⌊q * 100⌋ := by
        refine Int.floor_eq_iff.mpr ⟨?_, ?_⟩
        · have := Int.floor_le (q * 100)
          linarith
        · linarith
      rw [hfl]
  · exact fun values h => calculateAverage_eq h
  · intro values h
    have hlen : (validValues values).length ≠ 0 := by
      simpa [List.length_eq_zero] using h
    simp only [calculateStdDev, hlen, if_false, calculateAverage_valid]
  · exact fun qs d v hmem => (calculateDriverScores_mem_value qs d v hmem).2
  · intro r qs summ h
    refine ⟨(summ_fields h).1, ?_, ?_⟩
    · intro d v hmem
      rw [(summ_fields h).2] at hmem
      exact (respondentDriverScores_mem_value r qs d v hmem).2
    · intro o hmem
      rw [outlierQuestionsOf_summ h, outlierQuestionsOf, List.mem_filterMap] at hmem
      obtain ⟨⟨i, q⟩, hiq, hf⟩ := hmem
      dsimp only at hf
      rcases hscore : r.scores.getD i none with _ | s
      · rw [hscore] at hf
        exact absurd hf (by simp)
      · rw [hscore] at hf
        dsimp only at hf
        by_cases hcond : 3/2 ≤ |s - q.average|
        · rw [if_pos hcond] at hf
          rw [← Option.some.inj hf]
        · rw [if_neg hcond] at hf
          exact absurd hf (by simp)

/-- The outlier entry produced for the boundary respondent's first question. -/
def oW : OutlierEntry :=
  { questionIndex := 0, question := "Q1", respondentScore := 5, teamAverage := 7/2,
    difference := round2 (5 - 7/2) }

/-- Witness for C2 at concrete inputs: 4.125 rounds up to 4.13; concrete
average, stdDev, driver-score, overall-average and outlier-difference
derivations. -/
theorem C2_witness :
    round2 (33/8) = ((⌊(33/8 : ℚ) * 100⌋ : ℚ) + 1) / 100 ∧
    calculateAverage [some 4, some 5] =
      round2 ((validValues [some 4, some 5]).sum / (validValues [some 4, some 5]).length) ∧
    calculateStdDev [some 4, some 5] =
      rsqrt2 (((validValues [some 4, some 5]).map
        (fun x => (x - calculateAverage [some 4, some 5]) ^ 2)).sum /
        (validValues [some 4, some 5]).length) ∧
    calculateAverage (((qsBoundary.filter (fun q => decide (q.driver = "Purpose"))).map
        (fun q => q.average)).map some) =
      round2 ((((qsBoundary.filter (fun q => decide (q.driver = "Purpose"))).map
          (fun q => q.average)).sum) /
        (((qsBoundary.filter (fun q => decide (q.driver = "Purpose"))).map
          (fun q => q.average)).length)) ∧
    summBoundary.overallAverage = calculateAverage rBoundary.scores ∧
    oW ∈ summBoundary.outlierQuestions ∧
    oW.difference = round2 (oW.respondentScore - oW.teamAverage) := by
  have h0 : (0 : ℕ) < qsBoundary.length := by norm_num [qsBoundary]
  have hcnd : 3/2 ≤ |(5 : ℚ) - (qsBoundary.get ⟨0, h0⟩).average| := by
    rw [show (qsBoundary.get ⟨0, h0⟩).average = 7/2 from rfl]
    rw [abs_of_nonneg (by norm_num : (0 : ℚ) ≤ 5 - 7/2)]
    norm_num
  have hmem6 : oW ∈ summBoundary.outlierQuestions := by
    show oW ∈ outlierQuestionsOf rBoundary qsBoundary
    refine List.mem_filterMap.mpr ⟨(0, qsBoundary.get ⟨0, h0⟩), mem_enum_iff.mpr ⟨h0, rfl⟩, ?_⟩
    dsimp only
    rw [show rBoundary.scores.getD 0 none = some 5 from rfl]
    dsimp only
    rw [if_pos hcnd]
    rfl
  have hmemD : ("Purpose", calculateAverage (((qsBoundary.filter
      (fun q => decide (q.driver = "Purpose"))).map (fun q => q.average)).map some)) ∈
      calculateDriverScores qsBoundary := by
    rw [calculateDriverScores]
    rw [show firstSeen (qsBoundary.map (fun q => q.driver)) = ["Purpose"] from by
      simp [qsBoundary, firstSeen]]
    simp
  refine ⟨(C2_rounding_discipline.1 (33/8) (by norm_num)).1 ?_,
    C2_rounding_discipline.2.1 _ (by decide),
    C2_rounding_discipline.2.2.1 _ (by decide),
    C2_rounding_discipline.2.2.2.1 qsBoundary "Purpose" _ hmemD,
    (C2_rounding_discipline.2.2.2.2 rBoundary qsBoundary summBoundary summarize_boundary).1,
    hmem6,
    (C2_rounding_discipline.2.2.2.2 rBoundary qsBoundary summBoundary summarize_boundary).2.2
      oW hmem6⟩
  rw [show ⌊(33/8 : ℚ) * 100⌋ = 412 from Int.floor_eq_iff.mpr ⟨by norm_num, by norm_num⟩]
  norm_num

/-- C1 (amended): for a question with at least one non-missing score, the
`stdDev` field produced by `calculateQuestionStats` equals the square root of
the sum of squared deviations from the question's STORED 2-decimal `average`
(not the exact mean), divided by N (the count of non-missing scores, not N-1),
rounded half-up to 2 decimal places. -/
theorem C1_amended_stddev (questions : List Question) (q : QuestionStats)
    (hq : q ∈ calculateQuestionStats questions) (hne : validValues q.responses ≠ []) :
    ((q.stdDev : ℚ) : ℝ) =
      ((⌊Real.sqrt (((((validValues q.responses).map (fun x => (x - q.average) ^ 2)).sum /
          ((validValues q.responses).length : ℚ) : ℚ) : ℝ)) * 100 + 1/2⌋ : ℤ) : ℝ) / 100 := by
  obtain ⟨q0, hq0, rfl⟩ := List.mem_map.mp hq
  dsimp only at hne ⊢
  have hlen0 : ¬((validValues q0.responses).length = 0) := by
    simpa [List.length_eq_zero] using hne
  have hnonneg : 0 ≤ ((validValues q0.responses).map
      (fun x => (x - calculateAverage q0.responses) ^ 2)).sum /
      ((validValues q0.responses).length : ℚ) := by
    apply div_nonneg
    · apply List.sum_nonneg
      intro x hx
      obtain ⟨y, hy, rfl⟩ := List.mem_map.mp hx
      exact sq_nonneg _
    · positivity
  rw [show calculateStdDev q0.responses =
      rsqrt2 (((validValues q0.responses).map
        (fun x => (x - calculateAverage q0.responses) ^ 2)).sum /
        ((validValues q0.responses).length : ℚ)) from by
    simp only [calculateStdDev, hlen0, if_false, calculateAverage_valid]]
  exact rsqrt2_eq_floor_sqrt _ hnonneg

/-- The fourteen responses (four 3s, one 4, nine 5s) on which the code's
standard deviation differs from the exact-mean population standard
deviation. -/
def cexResponses : List (Option ℚ) :=
  [some 3, some 3, some 3, some 3, some 4,
   some 5, some 5, some 5, some 5, some 5, some 5, some 5, some 5, some 5]

/-- The counterexample question for C1. -/
def cexQuestion : Question :=
  { index := 0, driver := "Purpose", skill := "s", text := "CexQ", responses := cexResponses }

/-- Modelled from the spec: the claimed `stdDev` value, namely the population
standard deviation of the non-missing scores — square root of the sum of
squared deviations from the (exact) mean divided by N — rounded half-up to 2
decimal places. -/
def stdDevSpec (values : List (Option ℚ)) (v : ℚ) : Prop :=
  ((v : ℚ) : ℝ) =
    ((⌊Real.sqrt (((((validValues values).map
        (fun x => (x - (validValues values).sum / ((validValues values).length : ℚ)) ^ 2)).sum /
        ((validValues values).length : ℚ) : ℚ) : ℝ)) * 100 + 1/2⌋ : ℤ) : ℝ) / 100

lemma cex_valid : validValues cexResponses =
    [3, 3, 3, 3, 4, 5, 5, 5, 5, 5, 5, 5, 5, 5] := rfl

lemma cex_average : calculateAverage cexResponses = 436/100 := by
  rw [calculateAverage_eq (by rw [cex_valid]; simp), cex_valid]
  rw [show (([3, 3, 3, 3, 4, 5, 5, 5, 5, 5, 5, 5, 5, 5] : List ℚ).sum /
      (([3, 3, 3, 3, 4, 5, 5, 5, 5, 5, 5, 5, 5, 5] : List ℚ).length : ℚ)) = 61/14 from by
    norm_num [List.sum_cons]]
  rw [round2_eq_of_bounds (61/14) 436 (by norm_num) (by norm_num) (by norm_num)]
  norm_num

lemma cex_code_stddev : calculateStdDev cexResponses = 9/10 := by
  have hlen0 : ¬((validValues cexResponses).length = 0) := by rw [cex_valid]; simp
  rw [show calculateStdDev cexResponses =
      rsqrt2 (((validValues cexResponses).map
        (fun x => (x - calculateAverage cexResponses) ^ 2)).sum /
        ((validValues cexResponses).length : ℚ)) from by
    simp only [calculateStdDev, hlen0, if_false, calculateAverage_valid]]
  rw [cex_valid, cex_average]
  rw [show (([3, 3, 3, 3, 4, 5, 5, 5, 5, 5, 5, 5, 5, 5] : List ℚ).map
      (fun x => (x - 436/100) ^ 2)).sum / (([3, 3, 3, 3, 4, 5, 5, 5, 5, 5, 5, 5, 5, 5] : List ℚ).length : ℚ) =
      7009/8750 from by norm_num [List.sum_cons]]
  rw [rsqrt2_eq_of_data (7009/8750) 32041 179
    (Int.floor_eq_iff.mpr ⟨by norm_num, by norm_num⟩) (by norm_num) (by norm_num)]
  norm_num

/-- C1 counterexample: on the fourteen concrete scores, the code's `stdDev` is
0.90 while the population standard deviation of the scores (deviations from
the exact mean 61/14) rounds to 0.89. -/
theorem C1_counterexample :
    (calculateQuestionStats [cexQuestion]).map (fun q => q.stdDev) = [9/10] ∧
    ¬ stdDevSpec cexQuestion.responses (9/10) := by
  constructor
  · rw [show (calculateQuestionStats [cexQuestion]).map (fun q => q.stdDev) =
        [calculateStdDev cexResponses] from rfl]
    rw [cex_code_stddev]
  · intro hspec
    rw [stdDevSpec] at hspec
    rw [show (validValues cexQuestion.responses) = [3, 3, 3, 3, 4, 5, 5, 5, 5, 5, 5, 5, 5, 5] from rfl] at hspec
    rw [show (([3, 3, 3, 3, 4, 5, 5, 5, 5, 5, 5, 5, 5, 5] : List ℚ).map
        (fun x => (x - ([3, 3, 3, 3, 4, 5, 5, 5, 5, 5, 5, 5, 5, 5] : List ℚ).sum /
          (([3, 3, 3, 3, 4, 5, 5, 5, 5, 5, 5, 5, 5, 5] : List ℚ).length : ℚ)) ^ 2)).sum /
        (([3, 3, 3, 3, 4, 5, 5, 5, 5, 5, 5, 5, 5, 5] : List ℚ).length : ℚ) =
        157/196 from by norm_num [List.sum_cons]] at hspec
    rw [← rsqrt2_eq_floor_sqrt (157/196) (by norm_num)] at hspec
    rw [rsqrt2_eq_of_data (157/196) 32040 178
      (Int.floor_eq_iff.mpr ⟨by norm_num, by norm_num⟩) (by norm_num) (by norm_num)] at hspec
    norm_num at hspec

/-- The spec's own two-score example question (scores 5 and 3). -/
def q53 : Question :=
  { index := 0, driver := "Purpose", skill := "s", text := "Q53",
    responses := [some 5, some 3] }

/-- The stats record produced for `q53`. -/
def q53Stats : QuestionStats :=
  { index := 0, driver := "Purpose", skill := "s", text := "Q53",
    responses := [some 5, some 3],
    average := calculateAverage [some 5, some 3],
    stdDev := calculateStdDev [some 5, some 3],
    distribution := calculateDistribution [some 5, some 3] }

/-- Witness for C1 (amended) at the spec's own example: scores 5 and 3. -/
theorem C1_witness :
    q53Stats ∈ calculateQuestionStats [q53] ∧
    ((q53Stats.stdDev : ℚ) : ℝ) =
      ((⌊Real.sqrt (((((validValues q53Stats.responses).map
          (fun x => (x - q53Stats.average) ^ 2)).sum /
          ((validValues q53Stats.responses).length : ℚ) : ℚ) : ℝ)) * 100 + 1/2⌋ : ℤ) : ℝ) / 100 := by
  have hmem : q53Stats ∈ calculateQuestionStats [q53] := by
    simp [calculateQuestionStats, q53, q53Stats]
  exact ⟨hmem, C1_amended_stddev [q53] q53Stats hmem (by decide)⟩

/-- C8: `textToScore` maps the five canonical phrases (after trimming and
lower-casing) to 5..1 and maps null, empty and unknown text to the missing
marker — but on the inputs "constructor" and "__proto__" the lookup
`SCORE_MAP[normalized] ?? null` hits an inherited `Object.prototype` member
and returns a non-null object instead of the missing marker, contradicting
the function's own documented contract (`@returns {number|null}`). -/
theorem C8_text_to_score :
    textToScore (some " Strongly Agree ") = JsValue.num 5 ∧
    textToScore (some "Agree") = JsValue.num 4 ∧
    textToScore (some "NEUTRAL") = JsValue.num 3 ∧
    textToScore (some "disagree") = JsValue.num 2 ∧
    textToScore (some "Strongly Disagree") = JsValue.num 1 ∧
    textToScore none = JsValue.null ∧
    textToScore (some "") = JsValue.null ∧
    textToScore (some "banana") = JsValue.null ∧
    textToScore (some "strongly  agree") = JsValue.null ∧
    textToScore (some "Constructor") = JsValue.protoRef "constructor".data ∧
    textToScore (some " __proto__ ") = JsValue.protoRef "__proto__".data ∧
    textToScore (some "constructor") ≠ JsValue.null := by
  decide

/-- The row of the C9 counterexample: a name in column E and no scoreable
response anywhere. -/
def aliceRow : List (Option String) := [none, none, none, none, some "Alice"]

/-- C9 counterexample: a grid whose single respondent has zero non-missing
scores is not ingested silently — the respondent is excluded and
`parseExcelFile` then throws because no valid respondent remains. -/
theorem C9_counterexample :
    parseExcelRows [[], aliceRow] =
      Except.error "No valid respondents found with scoreable responses" := by
  rfl

/-- C9 (amended): a respondent with zero non-missing scores is silently
excluded and every respondent with at least one non-missing score is
retained; ingestion completes without error as long as at least one
respondent survives the exclusion, but when every respondent is excluded the
parser fails with an error instead of completing. -/
theorem C9_amended_exclusion (grid : List (List (Option String))) (h2 : 2 ≤ grid.length) :
    ((∃ row ∈ grid.drop 1, 0 < validScoreCount (rowScores row)) →
      parseExcelRows grid = Except.ok (((grid.drop 1).enum.map (fun ir =>
        ({ name := rowName ir.1 ir.2, scores := rowScores ir.2 } : ParsedRespondent))).filter
        (fun r => decide (0 < validScoreCount r.scores)))) ∧
    ((∀ row ∈ grid.drop 1, validScoreCount (rowScores row) = 0) →
      parseExcelRows grid = Except.error "No valid respondents found with scoreable responses") := by
  have hnotlt : ¬(grid.length < 2) := not_lt.mpr h2
  have hne0 : ¬((grid.drop 1).length = 0) := by
    rw [List.length_drop]
    omega
  constructor
  · rintro ⟨row, hrow, hcount⟩
    obtain ⟨⟨n, hn⟩, hget⟩ := List.mem_iff_get.mp hrow
    have hmeme : (n, row) ∈ (grid.drop 1).enum := mem_enum_iff.mpr ⟨hn, hget⟩
    have hmemm : ({ name := rowName n row, scores := rowScores row } : ParsedRespondent) ∈
        (grid.drop 1).enum.map (fun ir =>
          ({ name := rowName ir.1 ir.2, scores := rowScores ir.2 } : ParsedRespondent)) := by
      exact List.mem_map.mpr ⟨(n, row), hmeme, rfl⟩
    have hmemf : ({ name := rowName n row, scores := rowScores row } : ParsedRespondent) ∈
        ((grid.drop 1).enum.map (fun ir =>
          ({ name := rowName ir.1 ir.2, scores := rowScores ir.2 } : ParsedRespondent))).filter
          (fun r => decide (0 < validScoreCount r.scores)) := by
      refine List.mem_filter.mpr ⟨hmemm, ?_⟩
      exact decide_eq_true hcount
    have hlen3 : ¬((((grid.drop 1).enum.map (fun ir =>
        ({ name := rowName ir.1 ir.2, scores := rowScores ir.2 } : ParsedRespondent))).filter
        (fun r => decide (0 < validScoreCount r.scores))).length = 0) := by
      intro hzero
      rw [List.length_eq_zero] at hzero
      rw [hzero] at hmemf
      exact absurd hmemf (List.not_mem_nil _)
    simp only [parseExcelRows]
    rw [if_neg hnotlt, if_neg hne0, if_neg hlen3]
  · intro hall
    have hfilter_nil : (((grid.drop 1).enum.map (fun ir =>
        ({ name := rowName ir.1 ir.2, scores := rowScores ir.2 } : ParsedRespondent))).filter
        (fun r => decide (0 < validScoreCount r.scores))) = [] := by
      refine List.filter_eq_nil_iff.mpr ?_
      intro a ha
      obtain ⟨⟨i, row⟩, hiq, rfl⟩ := List.mem_map.mp ha
      obtain ⟨hi, hgeti⟩ := mem_enum_iff.mp hiq
      have hrowmem : row ∈ grid.drop 1 := by
        rw [← hgeti]
        exact List.get_mem _ _ _
      have := hall row hrowmem
      dsimp only
      rw [this]
      simp
    simp only [parseExcelRows]
    rw [if_neg hnotlt, if_neg hne0, if_pos (by rw [hfilter_nil]; rfl)]

/-- The row of the C9 witness: a name in column E and one valid response in
the first score column. -/
def bobRow : List (Option String) :=
  [none, none, none, none, some "Bob", none, none, none, none, some "Agree"]

/-- Witness for C9 (amended): a grid with one valid respondent parses to the
filtered respondent list, and a grid whose only respondent has no valid score
fails with the JS error. -/
theorem C9_witness :
    parseExcelRows [[], bobRow] =
      Except.ok (((([[], bobRow] : List (List (Option String))).drop 1).enum.map (fun ir =>
        ({ name := rowName ir.1 ir.2, scores := rowScores ir.2 } : ParsedRespondent))).filter
        (fun r => decide (0 < validScoreCount r.scores))) ∧
    parseExcelRows [[], [some "x"]] =
      Except.error "No valid respondents found with scoreable responses" := by
  constructor
  · exact (C9_amended_exclusion [[], bobRow] (by decide)).1 (by decide)
  · exact (C9_amended_exclusion [[], [some "x"]] (by decide)).2 (by decide)

end TMA
